import Mathlib

/-!
Verification of the county-assignment core (`scripts/assign_counties.py`).

Shallow embedding of the TopoJSON decoder, the containment/tolerance
assignment resolver and the histogram aggregator of
`scripts/assign_counties.py`, together with theorems settling the spec's
claims about them.

Coordinates are modelled as exact rationals (the Python floats never
overflow or round in the concrete inputs considered here, and the claims
are about the control flow and exact arithmetic shape of the code).
-/

namespace PhishGuard

/-- A 2-D coordinate (longitude, latitude). -/
abbrev Pt := ℚ × ℚ

/-- The optional TopoJSON transform: `scale` and `translate` pairs
(`topo["transform"]` in the script). -/
structure Transform where
  scale : ℚ × ℚ
  translate : ℚ × ℚ
  deriving DecidableEq, Repr

/-- Decode failure: in the Python source an out-of-range arc index raises
an uncaught `IndexError` from `arcs[idx]`. -/
inductive DecodeError where
  | arcIndexOutOfBounds
  deriving DecidableEq, Repr

/-- The delta-accumulation loop of `decode_arc` for the case where a
transform is present: running sums `(x, y)` start at `0`, each delta is
added, and the sum is mapped through
`x * scale[0] + translate[0], y * scale[1] + translate[1]`. -/
def decodeTransformed (t : Transform) : List Pt → ℚ → ℚ → List Pt
  | [], _, _ => []
  | (dx, dy) :: rest, x, y =>
      let x' := x + dx
      let y' := y + dy
      (x' * t.scale.1 + t.translate.1, y' * t.scale.2 + t.translate.2) ::
        decodeTransformed t rest x' y'

/-- `decode_arc(arc_index)` from the script: resolve a signed arc reference
against the shared arc table. `reverse = arc_index < 0`;
`idx = ~arc_index` (Python bitwise-not, i.e. `-arc_index - 1`) when
reversed. If a transform is present, deltas are accumulated and mapped;
otherwise the stored coordinates are returned unchanged
(`decoded = list(coords)`). The result is reversed for a negative
reference. An index past the end of the table is the uncaught
`IndexError` of `arcs[idx]`, modelled as `DecodeError`. -/
def arcTableIndex (arcIndex : ℤ) : ℤ :=
  if arcIndex < 0 then -arcIndex - 1 else arcIndex

def decode_arc (arcs : List (List Pt)) (transform : Option Transform)
    (arcIndex : ℤ) : Except DecodeError (List Pt) :=
  if h : (arcTableIndex arcIndex).toNat < arcs.length then
    let coords := arcs.get ⟨(arcTableIndex arcIndex).toNat, h⟩
    let decoded :=
      match transform with
      | some t => decodeTransformed t coords 0 0
      | none => coords
    .ok (if arcIndex < 0 then decoded.reverse else decoded)
  else
    .error .arcIndexOutOfBounds

/-- The loop body of `decode_ring`: accumulated `coords` grow by the next
arc's coordinates, with the leading coordinate dropped when `coords` is
already non-empty (`if coords: arc_coords = arc_coords[1:]`). -/
def ringStep (coords arcCoords : List Pt) : List Pt :=
  coords ++ (if coords.isEmpty then arcCoords else arcCoords.drop 1)

/-- The `decode_ring` loop with an explicit accumulator; a decode failure
in any arc propagates (the Python exception aborts the loop). -/
def decodeRingAux (arcs : List (List Pt)) (transform : Option Transform)
    (coords : List Pt) : List ℤ → Except DecodeError (List Pt)
  | [] => .ok coords
  | i :: rest =>
    match decode_arc arcs transform i with
    | .error e => .error e
    | .ok a => decodeRingAux arcs transform (ringStep coords a) rest

/-- `decode_ring(arc_indices)` from the script: decode each referenced arc
in order, dropping the first point of every arc once the accumulated list
is non-empty, and concatenate. -/
def decode_ring (arcs : List (List Pt)) (transform : Option Transform)
    (arcIndices : List ℤ) : Except DecodeError (List Pt) :=
  decodeRingAux arcs transform [] arcIndices

/-- Decode a list of arc references into their individual coordinate
lists, failing at the first decode error (used to state the ring-length
claim; mirrors calling `decode_arc` on each reference in order). -/
def decodeArcs (arcs : List (List Pt)) (transform : Option Transform) :
    List ℤ → Except DecodeError (List (List Pt))
  | [] => .ok []
  | i :: rest =>
    match decode_arc arcs transform i, decodeArcs arcs transform rest with
    | .ok a, .ok las => .ok (a :: las)
    | .error e, _ => .error e
    | .ok _, .error e => .error e

/-- Pure ring stitching over already-decoded arcs: the same fold as
`decode_ring` performs, without the error plumbing. -/
def stitch (las : List (List Pt)) : List Pt :=
  las.foldl ringStep []

/-- A geometry entry of the selected TopoJSON object
(`topo["objects"][name]["geometries"]`).  Feature ids are arbitrary JSON
values; only string and integer ids (plus a missing / null id) occur, and
the properties bag is never read by the script, so it is not modelled. -/
inductive PyVal where
  | str (s : String)
  | int (n : ℤ)
  deriving DecidableEq, Repr

/-- Python's `str()` applied to a feature id obtained with
`geom.get("id")`: a missing (or null) id is the object `None`, whose
string form is `"None"`. -/
def pyStr : Option PyVal → String
  | some (.str s) => s
  | some (.int n) => toString n
  | none => "None"

/-- One entry of the `geometries` list: a `Polygon` (list of rings, each a
list of arc references), a `MultiPolygon` (list of polygons), or any other
geometry type, which the conversion loop skips with `continue`. -/
inductive TopoGeometry where
  | polygon (id : Option PyVal) (arcs : List (List ℤ))
  | multiPolygon (id : Option PyVal) (arcs : List (List (List ℤ)))
  | other (typeName : String) (id : Option PyVal)
  deriving DecidableEq, Repr

/-- `True` exactly for the geometry types the conversion loop does not
recognize (neither `"Polygon"` nor `"MultiPolygon"`). -/
def TopoGeometry.isOther : TopoGeometry → Bool
  | .other _ _ => true
  | _ => false

/-- The TopoJSON document restricted to what the script reads: the shared
`arcs` table, the optional `transform`, and the geometry list of the
selected object. -/
structure Topology where
  arcs : List (List Pt)
  transform : Option Transform
  geometries : List TopoGeometry
  deriving DecidableEq, Repr

/-- A decoded GeoJSON geometry. -/
inductive GeoGeometry where
  | polygon (rings : List (List Pt))
  | multiPolygon (polys : List (List (List Pt)))
  deriving DecidableEq, Repr

/-- A produced GeoJSON feature (id and decoded geometry; the untouched
properties bag is omitted). -/
structure Feature where
  id : Option PyVal
  geometry : GeoGeometry
  deriving DecidableEq, Repr

/-- Decode all rings of one polygon, failing at the first ring whose
decoding fails. -/
def decodeRings (arcs : List (List Pt)) (transform : Option Transform) :
    List (List ℤ) → Except DecodeError (List (List Pt))
  | [] => .ok []
  | r :: rest =>
    match decode_ring arcs transform r, decodeRings arcs transform rest with
    | .ok c, .ok cs => .ok (c :: cs)
    | .error e, _ => .error e
    | .ok _, .error e => .error e

/-- Decode all polygons of one multipolygon. -/
def decodePolys (arcs : List (List Pt)) (transform : Option Transform) :
    List (List (List ℤ)) → Except DecodeError (List (List (List Pt)))
  | [] => .ok []
  | p :: rest =>
    match decodeRings arcs transform p, decodePolys arcs transform rest with
    | .ok c, .ok cs => .ok (c :: cs)
    | .error e, _ => .error e
    | .ok _, .error e => .error e

/-- Decode one geometry entry: a recognized type yields a feature, any
other type yields nothing (`continue` in the loop); a decode error
propagates. -/
def decodeGeom (arcs : List (List Pt)) (transform : Option Transform) :
    TopoGeometry → Except DecodeError (Option Feature)
  | .polygon id ringArcs =>
    match decodeRings arcs transform ringArcs with
    | .ok rings => .ok (some ⟨id, .polygon rings⟩)
    | .error e => .error e
  | .multiPolygon id polyArcs =>
    match decodePolys arcs transform polyArcs with
    | .ok polys => .ok (some ⟨id, .multiPolygon polys⟩)
    | .error e => .error e
  | .other _ _ => .ok none

/-- The geometry loop of `topojson_to_geojson_features`: features are
appended in order; an uncaught decode error anywhere aborts the whole
conversion (there is no `try`/`except` around the loop in the source). -/
def convertGeoms (arcs : List (List Pt)) (transform : Option Transform) :
    List TopoGeometry → Except DecodeError (List Feature)
  | [] => .ok []
  | g :: rest =>
    match decodeGeom arcs transform g, convertGeoms arcs transform rest with
    | .ok (some f), .ok fs => .ok (f :: fs)
    | .ok none, .ok fs => .ok fs
    | .error e, _ => .error e
    | .ok _, .error e => .error e

/-- `topojson_to_geojson_features(topo, object_name)` with the selected
object's geometries already extracted into `topo.geometries`. -/
def topojson_to_geojson_features (topo : Topology) :
    Except DecodeError (List Feature) :=
  convertGeoms topo.arcs topo.transform topo.geometries

/-- Python's `str.zfill(width)`: pad with leading zeros up to `width`,
keeping a leading sign character in front of the padding; a string whose
length is already at least `width` is returned unchanged. -/
def zfill (width : ℕ) (s : String) : String :=
  if width ≤ s.length then s
  else
    let pad := List.replicate (width - s.length) '0'
    match s.data with
    | c :: rest =>
      if c = '-' ∨ c = '+' then String.mk (c :: (pad ++ rest))
      else String.mk (pad ++ s.data)
    | [] => String.mk pad

/-- The geometry-building loop of `main` (lines 123-131): every feature
whose geometry the external library accepts as valid contributes its
geometry to `county_shapes` and `str(feat["id"]).zfill(5)` to
`county_fips_list`, in order.  The Shapely `shape(...)`/`is_valid` check
is an external-library call, abstracted as the predicate `isValid`. -/
def buildCounties (isValid : GeoGeometry → Bool) (feats : List Feature) :
    List GeoGeometry × List String :=
  ((feats.filter fun f => isValid f.geometry).map Feature.geometry,
   (feats.filter fun f => isValid f.geometry).map fun f => zfill 5 (pyStr f.id))

/-! ## Containment and distance (model of the Shapely calls)

`county_geom.contains(pt)` and `county_geom.distance(pt)` are external
library calls; they are modelled after spec section 4.5: a standard
even-odd ray-casting point-in-polygon test against the outer ring minus
hole rings, and the Euclidean distance from the point to the geometry
(zero for a contained point, otherwise the minimum distance to the
boundary segments), compared against the tolerance via exact squared
distances. -/

/-- Consecutive-vertex edges of a ring (decoded rings repeat the first
vertex at the end, so these edges close the ring). -/
def ringEdges : List Pt → List (Pt × Pt)
  | a :: b :: rest => (a, b) :: ringEdges (b :: rest)
  | _ => []

/-- Even-odd ray-casting containment test of a point in one ring. -/
def inRing (ring : List Pt) (p : Pt) : Bool :=
  (ringEdges ring).foldl
    (fun inside e =>
      let a := e.1
      let b := e.2
      if (decide (p.2 < a.2) != decide (p.2 < b.2)) &&
          decide (p.1 < (b.1 - a.1) * (p.2 - a.2) / (b.2 - a.2) + a.1)
      then !inside else inside)
    false

/-- Containment in a polygon given as outer ring plus hole rings: inside
the outer ring and in no hole. -/
def containsPoly (rings : List (List Pt)) (p : Pt) : Bool :=
  match rings with
  | [] => false
  | outer :: holes => inRing outer p && holes.all fun h => !(inRing h p)

/-- `geom.contains(pt)` for the two decoded geometry kinds. -/
def geomContains : GeoGeometry → Pt → Bool
  | .polygon rings, p => containsPoly rings p
  | .multiPolygon polys, p => polys.any fun poly => containsPoly poly p

/-- All boundary edges of a geometry. -/
def geomEdges : GeoGeometry → List (Pt × Pt)
  | .polygon rings => (rings.map ringEdges).flatten
  | .multiPolygon polys => (polys.map fun poly => (poly.map ringEdges).flatten).flatten

/-- Exact squared Euclidean distance from point `p` to the segment
`[a, b]` (the perpendicular foot clamped to the segment). -/
def distSqPointSeg (p a b : Pt) : ℚ :=
  let dx := b.1 - a.1
  let dy := b.2 - a.2
  let len2 := dx * dx + dy * dy
  if len2 = 0 then (p.1 - a.1) ^ 2 + (p.2 - a.2) ^ 2
  else
    let t := max 0 (min 1 (((p.1 - a.1) * dx + (p.2 - a.2) * dy) / len2))
    (p.1 - (a.1 + t * dx)) ^ 2 + (p.2 - (a.2 + t * dy)) ^ 2

/-- `geom.distance(pt) < tol` for `tol > 0`: the distance is `0` when the
point lies in the geometry, and otherwise the minimum distance to the
boundary, so it is below `tol` iff the point is contained or some
boundary segment is at squared distance below `tol ^ 2`. -/
def distLt (g : GeoGeometry) (p : Pt) (tol : ℚ) : Bool :=
  geomContains g p ||
    (geomEdges g).any fun e => decide (distSqPointSeg p e.1 e.2 < tol ^ 2)

/-- The fixed boundary tolerance `0.01` of line 156. -/
def TOLERANCE : ℚ := 1 / 100

/-- The per-point branch of the assignment loop (lines 154-165): the
nearest candidate's fips is assigned iff
`county_geom.contains(pt) or county_geom.distance(pt) < 0.01`;
otherwise the point is unassigned (`none`). -/
def resolvePoint (g : GeoGeometry) (fips : String) (p : Pt) : Option String :=
  if geomContains g p || distLt g p TOLERANCE then some fips else none

/-! ## Histogram aggregation (lines 140-165 of `main`) -/

/-- The histogram: insertion-ordered map from fips string to the
five-element count vector `[total, active, likelyActive, uncertain,
likelyClosed]`, as the Python dict `density`. -/
abbrev Density := List (String × List ℕ)

/-- The fresh count vector `[0, 0, 0, 0, 0]`. -/
def initVec : List ℕ := [0, 0, 0, 0, 0]

/-- `v[i] += 1` on a Python list (all uses index within bounds). -/
def bump (v : List ℕ) (i : ℕ) : List ℕ := v.set i (v.getD i 0 + 1)

/-- Dict lookup `density.get(fips)`. -/
def lookupFips : Density → String → Option (List ℕ)
  | [], _ => none
  | (k, v) :: rest, f => if k = f then some v else lookupFips rest f

/-- Dict store `density[fips] = v`: replace in place if the key exists,
else append (Python dicts preserve insertion order). -/
def setCounty : Density → String → List ℕ → Density
  | [], f, v => [(f, v)]
  | (k, w) :: rest, f, v =>
    if k = f then (k, v) :: rest else (k, w) :: setCounty rest f v

/-- Lines 157-162: create the county record on first assignment, bump
`total`, and bump the status bucket when `0 <= status <= 3`. -/
def updateDensity (d : Density) (fips : String) (status : ℤ) : Density :=
  let v := (lookupFips d fips).getD initVec
  let v := bump v 0
  let v := if 0 ≤ status ∧ status ≤ 3 then bump v (status + 1).toNat else v
  setCounty d fips v

/-- The mutable state of the assignment loop. -/
structure AssignState where
  density : Density
  assigned : ℕ
  unassigned : ℕ
  deriving DecidableEq, Repr

/-- The initial loop state: empty histogram, both counters zero. -/
def initState : AssignState := ⟨[], 0, 0⟩

/-- The whole per-point pipeline of the loop: build the point, query the
nearest candidate (`nearest` abstracts the external `STRtree` index; it
returns an index into the parallel `shapes`/`fipsList` arrays) and apply
the containment-or-tolerance branch. -/
def outcome (shapes : List GeoGeometry) (fipsList : List String)
    (nearest : Pt → ℕ) (pt : ℚ × ℚ × ℤ) : Option String :=
  let p : Pt := (pt.1, pt.2.1)
  let idx := nearest p
  resolvePoint (shapes.getD idx (.polygon [])) (fipsList.getD idx "") p

/-- One iteration of the assignment loop (lines 144-165). -/
def processPoint (shapes : List GeoGeometry) (fipsList : List String)
    (nearest : Pt → ℕ) (st : AssignState) (pt : ℚ × ℚ × ℤ) : AssignState :=
  match outcome shapes fipsList nearest pt with
  | some fips =>
    { st with
      density := updateDensity st.density fips pt.2.2
      assigned := st.assigned + 1 }
  | none => { st with unassigned := st.unassigned + 1 }

/-- The full assignment loop over the point list. -/
def runAssign (shapes : List GeoGeometry) (fipsList : List String)
    (nearest : Pt → ℕ) (points : List (ℚ × ℚ × ℤ)) : AssignState :=
  points.foldl (processPoint shapes fipsList nearest) initState

/-! ## Summary statistics (lines 167-175 of `main`) -/

/-- Python's `max` on a list, which raises `ValueError` on an empty
sequence. -/
def pyMax : List ℕ → Except String ℕ
  | [] => .error "max() arg is an empty sequence"
  | x :: xs => .ok (xs.foldl Nat.max x)

/-- Insertion of an element into a sorted list (ascending). -/
def insertSorted (x : ℕ) : List ℕ → List ℕ
  | [] => [x]
  | y :: ys => if x ≤ y then x :: y :: ys else y :: insertSorted x ys

/-- Python's `sorted` on a list of naturals (insertion sort). -/
def pySorted (l : List ℕ) : List ℕ := l.foldr insertSorted []

/-- `sorted(totals)[len(totals) // 2]`, which raises `IndexError` on an
empty list. -/
def pyMedian (l : List ℕ) : Except String ℕ :=
  match (pySorted l).get? (l.length / 2) with
  | some v => .ok v
  | none => .error "list index out of range"

/-- The summary `main` prints after the loop. -/
structure RunReport where
  assigned : ℕ
  unassigned : ℕ
  countiesWithPoints : ℕ
  maxPerCounty : ℕ
  medianPerCounty : ℕ
  deriving DecidableEq, Repr

/-- Sum of the `total` entries over the histogram. -/
def sumTotals (d : Density) : ℕ :=
  (d.map fun kv => kv.2.getD 0 0).sum

/-- Lines 138-175 of `main`: run the assignment loop, then compute the
reported summary; `max(totals)` (and `sorted(totals)[...]`) raise when no
county received a point. -/
def runSummary (shapes : List GeoGeometry) (fipsList : List String)
    (nearest : Pt → ℕ) (points : List (ℚ × ℚ × ℤ)) :
    Except String RunReport :=
  let st := runAssign shapes fipsList nearest points
  let totals := st.density.map fun kv => kv.2.getD 0 0
  match pyMax totals, pyMedian totals with
  | .ok mx, .ok med =>
    .ok ⟨st.assigned, st.unassigned, st.density.length, mx, med⟩
  | .error e, _ => .error e
  | .ok _, .error e => .error e


/-! ## Concrete inputs from the spec's testable properties -/

/-- The spec's example arc table: the single arc `[[0,0],[2,3],[-1,-1]]`. -/
def specArcTable : List (List Pt) := [[(0, 0), (2, 3), (-1, -1)]]

/-- The spec's example transform `scale=[2,2], translate=[10,10]`. -/
def specTransform : Transform := ⟨(2, 2), (10, 10)⟩

/-- The spec's reversal example arc `[[0,0],[1,0],[0,1]]`. -/
def revArcTable : List (List Pt) := [[(0, 0), (1, 0), (0, 1)]]

/-- Decidable equality on `Except`, for evaluating decoder results on
concrete inputs. -/
instance {ε α : Type} [DecidableEq ε] [DecidableEq α] :
    DecidableEq (Except ε α)
  | .ok a, .ok b =>
    if h : a = b then .isTrue (by rw [h]) else .isFalse (by simp [h])
  | .error e, .error f =>
    if h : e = f then .isTrue (by rw [h]) else .isFalse (by simp [h])
  | .ok _, .error _ => .isFalse (by simp)
  | .error _, .ok _ => .isFalse (by simp)

/-! ## Decoder lemmas -/

/-- `decodeArcs` produces one decoded arc per reference. -/
theorem decodeArcs_length (arcs : List (List Pt)) (tr : Option Transform) :
    ∀ idxs las, decodeArcs arcs tr idxs = .ok las → las.length = idxs.length := by
  intro idxs
  induction idxs with
  | nil => intro las h; cases h; rfl
  | cons i rest ih =>
    intro las h
    simp only [decodeArcs] at h
    cases h1 : decode_arc arcs tr i with
    | error e => rw [h1] at h; cases h
    | ok a =>
      rw [h1] at h
      cases h2 : decodeArcs arcs tr rest with
      | error e => rw [h2] at h; cases h
      | ok las' =>
        rw [h2] at h
        cases h
        simp [ih las' h2]

/-- When every referenced arc decodes, `decode_ring` is the pure stitch of
the decoded arcs. -/
theorem decodeRingAux_eq_foldl (arcs : List (List Pt)) (tr : Option Transform) :
    ∀ idxs las coords, decodeArcs arcs tr idxs = .ok las →
      decodeRingAux arcs tr coords idxs = .ok (las.foldl ringStep coords) := by
  intro idxs
  induction idxs with
  | nil => intro las coords h; cases h; rfl
  | cons i rest ih =>
    intro las coords h
    simp only [decodeArcs] at h
    cases h1 : decode_arc arcs tr i with
    | error e => rw [h1] at h; cases h
    | ok a =>
      rw [h1] at h
      cases h2 : decodeArcs arcs tr rest with
      | error e => rw [h2] at h; cases h
      | ok las' =>
        rw [h2] at h
        cases h
        simp only [decodeRingAux, h1, List.foldl_cons]
        exact ih las' (ringStep coords a) h2

/-- A list of non-empty lists has at least as many elements as lists. -/
theorem length_le_sum_lengths (las : List (List Pt))
    (hne : ∀ a ∈ las, a ≠ []) :
    las.length ≤ (las.map List.length).sum := by
  induction las with
  | nil => simp
  | cons a rest ih =>
    have ha : a ≠ [] := hne a (by simp)
    have h1 : 1 ≤ a.length := List.length_pos.mpr ha
    have h2 := ih fun b hb => hne b (by simp [hb])
    simp only [List.map_cons, List.sum_cons, List.length_cons]
    omega

/-- Folding `ringStep` over non-empty arcs starting from a non-empty
accumulator adds `len(arc) - 1` per arc. -/
theorem foldl_ringStep_length (las : List (List Pt)) :
    ∀ acc : List Pt, (∀ a ∈ las, a ≠ []) → acc ≠ [] →
      (las.foldl ringStep acc).length =
        acc.length + ((las.map List.length).sum - las.length) := by
  induction las with
  | nil => intro acc _ _; simp
  | cons a rest ih =>
    intro acc hne hacc
    have ha : a ≠ [] := hne a (by simp)
    have h1 : 1 ≤ a.length := List.length_pos.mpr ha
    have hrest : ∀ b ∈ rest, b ≠ [] := fun b hb => hne b (by simp [hb])
    have hsum := length_le_sum_lengths rest hrest
    have hstep : ringStep acc a = acc ++ a.drop 1 := by
      simp [ringStep, List.isEmpty_iff, hacc]
    have hstep_ne : ringStep acc a ≠ [] := by
      rw [hstep]; simp [hacc]
    rw [List.foldl_cons, ih (ringStep acc a) hrest hstep_ne, hstep]
    simp only [List.length_append, List.length_drop, List.map_cons,
      List.sum_cons, List.length_cons]
    omega

/-- Length of a fully stitched ring over non-empty arcs. -/
theorem stitch_length (las : List (List Pt)) (hne : ∀ a ∈ las, a ≠ []) :
    (stitch las).length = (las.map List.length).sum - (las.length - 1) := by
  cases las with
  | nil => simp [stitch]
  | cons a rest =>
    have ha : a ≠ [] := hne a (by simp)
    have h1 : 1 ≤ a.length := List.length_pos.mpr ha
    have hrest : ∀ b ∈ rest, b ≠ [] := fun b hb => hne b (by simp [hb])
    have hsum := length_le_sum_lengths rest hrest
    have hfirst : ringStep [] a = a := by simp [ringStep]
    simp only [stitch, List.foldl_cons, hfirst]
    rw [foldl_ringStep_length rest a hrest ha]
    simp only [List.map_cons, List.sum_cons, List.length_cons]
    omega

/-- C3: a ring assembled from `k` arcs, all non-empty, has length
`sum(len(arc_i)) - (k - 1)`: every arc after the first loses its leading
coordinate before concatenation. -/
theorem ring_length_drops_shared_vertices (arcs : List (List Pt))
    (tr : Option Transform) (idxs : List ℤ) (las : List (List Pt))
    (hdec : decodeArcs arcs tr idxs = .ok las)
    (hne : ∀ a ∈ las, a ≠ []) :
    decode_ring arcs tr idxs = .ok (stitch las) ∧
    (stitch las).length = (las.map List.length).sum - (idxs.length - 1) := by
  constructor
  · exact decodeRingAux_eq_foldl arcs tr idxs las [] hdec
  · rw [← decodeArcs_length arcs tr idxs las hdec]
    exact stitch_length las hne

/-- C3 witness: two arcs of length 3 sharing an endpoint assemble into a
ring of length 5. -/
theorem ring_length_drops_shared_vertices_witness :
    decodeArcs [[(0, 0), (1, 0), (1, 1)], [(1, 1), (0, 1), (0, 0)]] none [0, 1] =
      .ok [[(0, 0), (1, 0), (1, 1)], [(1, 1), (0, 1), (0, 0)]] ∧
    decode_ring [[(0, 0), (1, 0), (1, 1)], [(1, 1), (0, 1), (0, 0)]] none [0, 1] =
      .ok (stitch [[(0, 0), (1, 0), (1, 1)], [(1, 1), (0, 1), (0, 0)]]) ∧
    (stitch [[(0, 0), (1, 0), (1, 1)], [(1, 1), (0, 1), (0, 0)]]).length = 5 := by
  have h := ring_length_drops_shared_vertices
    [[(0, 0), (1, 0), (1, 1)], [(1, 1), (0, 1), (0, 0)]] none [0, 1]
    [[(0, 0), (1, 0), (1, 1)], [(1, 1), (0, 1), (0, 0)]]
    (by decide) (by decide)
  exact ⟨by decide, h.1, by decide⟩

/-- C2 counterexample: with no transform present, `decode_arc` returns the
stored coordinates unchanged (`decoded = list(coords)`), so the arc
`[[0,0],[2,3],[-1,-1]]` decodes to itself and not to the running-sum
points `[[0,0],[2,3],[1,2]]` the claim requires. -/
theorem decode_no_transform_counterexample :
    decode_arc specArcTable none 0 = .ok [(0, 0), (2, 3), (-1, -1)] ∧
    decode_arc specArcTable none 0 ≠ .ok [(0, 0), (2, 3), (1, 2)] := by
  constructor
  · rfl
  · decide

/-- C2 amended: with no transform, decoding a non-negative reference
returns the table entry unchanged (coordinates are treated as already
absolute); when a transform is present the deltas are accumulated and
mapped, so with `scale=[2,2], translate=[10,10]` the spec's example arc
decodes to `[[10,10],[14,16],[12,14]]`. -/
theorem decode_arc_transform_roundtrip (arcs : List (List Pt)) (i : ℕ)
    (h : i < arcs.length) :
    decode_arc arcs none (i : ℤ) = .ok (arcs.get ⟨i, h⟩) ∧
    decode_arc specArcTable (some specTransform) 0 =
      .ok [(10, 10), (14, 16), (12, 14)] := by
  constructor
  · have h0 : ¬((i : ℤ) < 0) := by omega
    have hidx : arcTableIndex (i : ℤ) = (i : ℤ) := if_neg h0
    simp only [decode_arc, hidx, Int.toNat_natCast, if_neg h0]
    rw [dif_pos h]
  · norm_num [decode_arc, arcTableIndex, specArcTable, specTransform,
      decodeTransformed]

/-- C2 amended witness: the no-transform branch at the spec's example arc. -/
theorem decode_arc_transform_roundtrip_witness :
    (0 < specArcTable.length) ∧
    decode_arc specArcTable none ((0 : ℕ) : ℤ) =
      .ok (specArcTable.get ⟨0, by decide⟩) :=
  ⟨by decide, (decode_arc_transform_roundtrip specArcTable 0 (by decide)).1⟩

/-- C8: decoding a negative arc reference `r` equals decoding the arc at
index `-(r+1)` and reversing the result; concretely, reference `-1` for
the arc `[[0,0],[1,0],[0,1]]` yields the sequence reversed end-to-start. -/
theorem negative_arc_reference_reverses (arcs : List (List Pt))
    (tr : Option Transform) (r : ℤ) (h : r < 0) :
    decode_arc arcs tr r = (decode_arc arcs tr (-(r + 1))).map List.reverse ∧
    decode_arc revArcTable none (-1) = .ok [(0, 1), (1, 0), (0, 0)] := by
  constructor
  · have h1 : ¬((-(r + 1) : ℤ) < 0) := by omega
    have hidx : arcTableIndex (-(r + 1)) = arcTableIndex r := by
      unfold arcTableIndex
      rw [if_pos h, if_neg h1]
      ring
    simp only [decode_arc, hidx]
    by_cases hc : (arcTableIndex r).toNat < arcs.length
    · rw [dif_pos hc, dif_pos hc]
      simp only [if_pos h, if_neg h1, Except.map]
    · rw [dif_neg hc, dif_neg hc]
      simp [Except.map]
  · decide

/-- C8 witness: the general reversal law applied at reference `-1` over
the spec's example arc table. -/
theorem negative_arc_reference_reverses_witness :
    ((-1 : ℤ) < 0) ∧
    decode_arc revArcTable none (-1) =
      (decode_arc revArcTable none (-((-1) + 1))).map List.reverse :=
  ⟨by decide, (negative_arc_reference_reverses revArcTable none (-1) (by decide)).1⟩

/-! ## Conversion-level error propagation and skipping -/

/-- A single closed square arc used as a well-formed county boundary. -/
def goodArc : List Pt := [(0, 0), (0, 10), (10, 10), (10, 0), (0, 0)]

/-- A topology with one well-formed polygon geometry and no others. -/
def topoGood : Topology :=
  ⟨[goodArc], none, [.polygon (some (.str "22222")) [[0]]]⟩

/-- The same topology with a first geometry referencing arc index `5`,
out of range of the one-entry arc table. -/
def topoBadArc : Topology :=
  ⟨[goodArc], none,
   [.polygon (some (.str "11111")) [[5]],
    .polygon (some (.str "22222")) [[0]]]⟩

/-- The good topology plus three unsupported-type geometries. -/
def topoWithOthers : Topology :=
  ⟨[goodArc], none,
   [.polygon (some (.str "22222")) [[0]],
    .other "Point" none,
    .other "LineString" none,
    .other "GeometryCollection" none]⟩

/-- An uncaught decode error in any geometry aborts the whole conversion:
whatever was converted before it is discarded and the remaining
geometries are never reached. -/
theorem convertGeoms_append_error (arcs : List (List Pt))
    (tr : Option Transform) (gs1 : List TopoGeometry) (g : TopoGeometry)
    (gs2 : List TopoGeometry) :
    ∀ fs1 e, convertGeoms arcs tr gs1 = .ok fs1 →
      decodeGeom arcs tr g = .error e →
      convertGeoms arcs tr (gs1 ++ g :: gs2) = .error e := by
  induction gs1 with
  | nil =>
    intro fs1 e _ h2
    simp only [List.nil_append, convertGeoms, h2]
  | cons g0 rest ih =>
    intro fs1 e h1 h2
    simp only [convertGeoms] at h1
    cases hg0 : decodeGeom arcs tr g0 with
    | error e0 => rw [hg0] at h1; cases h1
    | ok of =>
      rw [hg0] at h1
      cases hrest : convertGeoms arcs tr rest with
      | error e0 =>
        rw [hrest] at h1
        cases of <;> cases h1
      | ok fs' =>
        have hprop := ih fs' e hrest h2
        rw [List.cons_append]
        simp only [convertGeoms, hg0, hprop]

/-- C4 counterexample: in `topoBadArc` the first geometry references arc
index `5` in a one-entry arc table; the conversion of the whole document
fails instead of skipping that geometry, even though the remaining
geometry alone converts fine. -/
theorem decode_error_aborts_conversion_counterexample :
    topojson_to_geojson_features topoBadArc = .error .arcIndexOutOfBounds ∧
    topojson_to_geojson_features topoGood =
      .ok [⟨some (.str "22222"), .polygon [goodArc]⟩] := by
  constructor <;> rfl

/-- C4 amended: an out-of-range arc reference raises an uncaught error
that aborts the whole conversion — no feature list is produced and the
geometries after the failing one are never processed (nothing is skipped
per-geometry). -/
theorem decode_error_aborts_conversion (arcs : List (List Pt))
    (tr : Option Transform) (gs1 : List TopoGeometry) (g : TopoGeometry)
    (gs2 : List TopoGeometry) (fs1 : List Feature) (e : DecodeError)
    (h1 : convertGeoms arcs tr gs1 = .ok fs1)
    (h2 : decodeGeom arcs tr g = .error e) :
    topojson_to_geojson_features ⟨arcs, tr, gs1 ++ g :: gs2⟩ = .error e :=
  convertGeoms_append_error arcs tr gs1 g gs2 fs1 e h1 h2

/-- C4 amended witness: the failing polygon of `topoBadArc` placed after
an empty prefix aborts the conversion. -/
theorem decode_error_aborts_conversion_witness :
    convertGeoms [goodArc] none [] = .ok [] ∧
    decodeGeom [goodArc] none (.polygon (some (.str "11111")) [[5]]) =
      .error .arcIndexOutOfBounds ∧
    topojson_to_geojson_features
      ⟨[goodArc], none,
       [] ++ (.polygon (some (.str "11111")) [[5]]) ::
         [.polygon (some (.str "22222")) [[0]]]⟩ =
      .error .arcIndexOutOfBounds :=
  ⟨rfl, rfl,
   decode_error_aborts_conversion [goodArc] none []
     (.polygon (some (.str "11111")) [[5]])
     [.polygon (some (.str "22222")) [[0]]] [] .arcIndexOutOfBounds rfl rfl⟩

/-- C6 amended: geometries of unsupported type are skipped without error
and excluded from the output feature set — the conversion output is
identical to that of the topology with those geometries removed, so no
count of skipped items is derivable from (or reported with) the output. -/
theorem isOther_polygon (id : Option PyVal) (a : List (List ℤ)) :
    (TopoGeometry.polygon id a).isOther = false := rfl

theorem isOther_multiPolygon (id : Option PyVal) (a : List (List (List ℤ))) :
    (TopoGeometry.multiPolygon id a).isOther = false := rfl

theorem isOther_other (t : String) (id : Option PyVal) :
    (TopoGeometry.other t id).isOther = true := rfl

theorem unsupported_geometries_skipped (arcs : List (List Pt))
    (tr : Option Transform) (gs : List TopoGeometry) :
    convertGeoms arcs tr gs =
      convertGeoms arcs tr (gs.filter fun g => !g.isOther) := by
  induction gs with
  | nil => rfl
  | cons g rest ih =>
    cases g with
    | polygon id a =>
      simp only [List.filter_cons, isOther_polygon, Bool.not_false,
        if_true, convertGeoms, ih]
    | multiPolygon id a =>
      simp only [List.filter_cons, isOther_multiPolygon, Bool.not_false,
        if_true, convertGeoms, ih]
    | other t id =>
      simp only [List.filter_cons, isOther_other, Bool.not_true,
        Bool.false_eq_true, if_false]
      rw [← ih]
      simp only [convertGeoms, decodeGeom]
      cases hc : convertGeoms arcs tr rest <;> rfl

/-- C6 counterexample: adding three unsupported-type geometries to a
topology leaves the conversion output bit-for-bit identical, so the
number of skipped items (3 here versus 0) is not counted or reported
anywhere in the run's output. -/
theorem skipped_count_not_reported_counterexample :
    topojson_to_geojson_features topoWithOthers =
      topojson_to_geojson_features topoGood ∧
    (topoWithOthers.geometries.countP fun g => g.isOther) = 3 ∧
    (topoGood.geometries.countP fun g => g.isOther) = 0 := by
  refine ⟨rfl, rfl, rfl⟩

/-! ## The assignment resolver (C1) -/

/-- The spec's example square ring `[[0,0],[0,10],[10,10],[10,0],[0,0]]`. -/
def sqRing : List Pt := [(0, 0), (0, 10), (10, 10), (10, 0), (0, 0)]

/-- The square as a decoded polygon geometry. -/
def sqGeom : GeoGeometry := .polygon [sqRing]

/-- The spec's near-boundary point `(10.005, 5)`, just outside the square
but within `0.01` of its boundary. -/
def nearPt : Pt := (2001 / 200, 5)

/-- C1: the resolver assigns the nearest candidate's fips iff the point is
contained in the candidate geometry or its distance to the geometry is
below the tolerance `0.01`, and is marked unassigned otherwise; in
particular the point `(10.005, 5)` just outside the spec's square is not
contained but is assigned to it through the tolerance fallback. -/
theorem resolver_tolerance_policy (g : GeoGeometry) (fips : String) (p : Pt) :
    (resolvePoint g fips p = some fips ↔
      (geomContains g p = true ∨ distLt g p TOLERANCE = true)) ∧
    (resolvePoint g fips p = none ↔
      ¬(geomContains g p = true ∨ distLt g p TOLERANCE = true)) ∧
    geomContains sqGeom nearPt = false ∧
    resolvePoint sqGeom "12345" nearPt = some "12345" := by
  refine ⟨?_, ?_, ?_, ?_⟩
  · cases hcont : geomContains g p with
    | true => simp [resolvePoint, hcont]
    | false =>
      cases hdist : distLt g p TOLERANCE with
      | true => simp [resolvePoint, hcont, hdist]
      | false => simp [resolvePoint, hcont, hdist]
  · cases hcont : geomContains g p with
    | true => simp [resolvePoint, hcont]
    | false =>
      cases hdist : distLt g p TOLERANCE with
      | true => simp [resolvePoint, hcont, hdist]
      | false => simp [resolvePoint, hcont, hdist]
  · norm_num [geomContains, sqGeom, containsPoly, inRing, ringEdges, sqRing,
      nearPt]
  · norm_num [resolvePoint, TOLERANCE, distLt, geomContains, sqGeom,
      containsPoly, inRing, ringEdges, geomEdges, distSqPointSeg, sqRing,
      nearPt]

/-- C1 witness: a point strictly inside the square is assigned through
the containment branch of the resolver. -/
theorem resolver_tolerance_policy_witness :
    resolvePoint sqGeom "06037" (5, 5) = some "06037" :=
  (resolver_tolerance_policy sqGeom "06037" (5, 5)).1.mpr
    (Or.inl (by
      norm_num [geomContains, sqGeom, containsPoly, inRing, ringEdges, sqRing]))

/-! ## Aggregation lemmas (C7, C9) -/

/-- Looking up the key just stored finds the stored value. -/
theorem lookupFips_setCounty_self (d : Density) (f : String) (v : List ℕ) :
    lookupFips (setCounty d f v) f = some v := by
  induction d with
  | nil => simp [setCounty, lookupFips]
  | cons kv rest ih =>
    obtain ⟨k, w⟩ := kv
    by_cases h : k = f
    · simp [setCounty, h, lookupFips]
    · simp [setCounty, h, lookupFips, ih]

/-- Storing under one key leaves every other key's lookup unchanged. -/
theorem lookupFips_setCounty_ne (d : Density) (f g : String) (v : List ℕ)
    (h : g ≠ f) : lookupFips (setCounty d f v) g = lookupFips d g := by
  have hfg : f ≠ g := fun hh => h hh.symm
  induction d with
  | nil => simp [setCounty, lookupFips, if_neg hfg]
  | cons kv rest ih =>
    obtain ⟨k, w⟩ := kv
    by_cases hk : k = f
    · have hkg : ¬(k = g) := by rw [hk]; exact hfg
      simp only [setCounty, if_pos hk, lookupFips, if_neg hkg]
    · simp only [setCounty, if_neg hk, lookupFips]
      by_cases hg : k = g
      · simp only [if_pos hg]
      · simp only [if_neg hg, ih]

/-- Replacing the value stored under an existing key shifts the sum of
`total` entries by the difference of the two values' heads. -/
theorem sumTotals_setCounty_some (d : Density) (f : String)
    (v w : List ℕ) (h : lookupFips d f = some w) :
    sumTotals (setCounty d f v) + w.getD 0 0 = sumTotals d + v.getD 0 0 := by
  induction d with
  | nil => cases h
  | cons kv rest ih =>
    obtain ⟨k, w'⟩ := kv
    by_cases hk : k = f
    · simp only [lookupFips, if_pos hk] at h
      cases h
      simp [setCounty, hk, sumTotals]
      omega
    · simp only [lookupFips, if_neg hk] at h
      have := ih h
      simp only [setCounty, if_neg hk, sumTotals, List.map_cons,
        List.sum_cons] at this ⊢
      omega

/-- Storing under a fresh key adds the new value's head to the sum of
`total` entries. -/
theorem sumTotals_setCounty_none (d : Density) (f : String)
    (v : List ℕ) (h : lookupFips d f = none) :
    sumTotals (setCounty d f v) = sumTotals d + v.getD 0 0 := by
  induction d with
  | nil => simp [setCounty, sumTotals]
  | cons kv rest ih =>
    obtain ⟨k, w'⟩ := kv
    by_cases hk : k = f
    · simp [lookupFips, if_pos hk] at h
    · simp only [lookupFips, if_neg hk] at h
      have := ih h
      simp only [setCounty, if_neg hk, sumTotals, List.map_cons,
        List.sum_cons] at this ⊢
      omega

/-- Number of points of `pts` whose assignment outcome is county `f`. -/
def cntTo (o : ℚ × ℚ × ℤ → Option String) (pts : List (ℚ × ℚ × ℤ))
    (f : String) : ℕ :=
  pts.countP fun pt => decide (o pt = some f)

/-- Number of points of `pts` assigned to county `f` with status `j`. -/
def cntToS (o : ℚ × ℚ × ℤ → Option String) (pts : List (ℚ × ℚ × ℤ))
    (f : String) (j : ℤ) : ℕ :=
  pts.countP fun pt => decide (o pt = some f ∧ pt.2.2 = j)

theorem cntTo_append_assigned (o : ℚ × ℚ × ℤ → Option String)
    (pts : List (ℚ × ℚ × ℤ)) (pt : ℚ × ℚ × ℤ) (f : String)
    (h : o pt = some f) : cntTo o (pts ++ [pt]) f = cntTo o pts f + 1 := by
  simp [cntTo, List.countP_append, List.countP_cons, h]

theorem cntTo_append_notassigned (o : ℚ × ℚ × ℤ → Option String)
    (pts : List (ℚ × ℚ × ℤ)) (pt : ℚ × ℚ × ℤ) (f : String)
    (h : o pt ≠ some f) : cntTo o (pts ++ [pt]) f = cntTo o pts f := by
  simp [cntTo, List.countP_append, List.countP_cons, h]

theorem cntToS_append_eq (o : ℚ × ℚ × ℤ → Option String)
    (pts : List (ℚ × ℚ × ℤ)) (pt : ℚ × ℚ × ℤ) (f : String) (j : ℤ)
    (h : o pt = some f) (hj : pt.2.2 = j) :
    cntToS o (pts ++ [pt]) f j = cntToS o pts f j + 1 := by
  simp [cntToS, List.countP_append, List.countP_cons, h, hj]

theorem cntToS_append_ne (o : ℚ × ℚ × ℤ → Option String)
    (pts : List (ℚ × ℚ × ℤ)) (pt : ℚ × ℚ × ℤ) (f : String) (j : ℤ)
    (h : ¬(o pt = some f ∧ pt.2.2 = j)) :
    cntToS o (pts ++ [pt]) f j = cntToS o pts f j := by
  simp only [cntToS, List.countP_append, List.countP_cons, List.countP_nil]
  simp [h]

theorem cntToS_le_cntTo (o : ℚ × ℚ × ℤ → Option String)
    (pts : List (ℚ × ℚ × ℤ)) (f : String) (j : ℤ) :
    cntToS o pts f j ≤ cntTo o pts f := by
  apply List.countP_mono_left
  intro pt _ hpt
  rw [decide_eq_true_eq] at hpt
  exact decide_eq_true_eq.mpr hpt.1

/-- The value one aggregation step stores for the chosen county. -/
def newVec (v : List ℕ) (status : ℤ) : List ℕ :=
  let v1 := bump v 0
  if 0 ≤ status ∧ status ≤ 3 then bump v1 (status + 1).toNat else v1

theorem updateDensity_eq (d : Density) (f : String) (s : ℤ) :
    updateDensity d f s =
      setCounty d f (newVec ((lookupFips d f).getD initVec) s) := rfl

/-- The loop invariant of the assignment loop: every county record holds
exactly the per-county counts over the processed points (total in slot 0,
one bucket per status `0..3`), records exist exactly for counties with at
least one assigned point, the totals sum to the assigned counter, and
assigned plus unassigned is the number of processed points. -/
def Inv (o : ℚ × ℚ × ℤ → Option String) (pts : List (ℚ × ℚ × ℤ))
    (st : AssignState) : Prop :=
  (∀ f v, lookupFips st.density f = some v →
    v = [cntTo o pts f, cntToS o pts f 0, cntToS o pts f 1,
         cntToS o pts f 2, cntToS o pts f 3] ∧ cntTo o pts f ≠ 0) ∧
  (∀ f, lookupFips st.density f = none → cntTo o pts f = 0) ∧
  sumTotals st.density = st.assigned ∧
  st.assigned + st.unassigned = pts.length

theorem int_toNat_two : Int.toNat 2 = 2 := rfl

theorem int_toNat_three : Int.toNat 3 = 3 := rfl

theorem int_toNat_four : Int.toNat 4 = 4 := rfl

theorem bump_getD_zero (v : List ℕ) (hv : v ≠ []) :
    (bump v 0).getD 0 0 = v.getD 0 0 + 1 := by
  cases v with
  | nil => exact absurd rfl hv
  | cons a t => simp [bump]

theorem bump_getD_zero_ne (v : List ℕ) (i : ℕ) (hi : i ≠ 0) :
    (bump v i).getD 0 0 = v.getD 0 0 := by
  cases v with
  | nil => simp [bump]
  | cons a t =>
    cases i with
    | zero => exact absurd rfl hi
    | succ j => simp [bump]

/-- Each aggregation step raises the stored `total` entry by one. -/
theorem newVec_getD_zero (v : List ℕ) (hv : v ≠ []) (s : ℤ) :
    (newVec v s).getD 0 0 = v.getD 0 0 + 1 := by
  unfold newVec
  by_cases hs : 0 ≤ s ∧ s ≤ 3
  · rw [if_pos hs, bump_getD_zero_ne _ _ (by omega), bump_getD_zero v hv]
  · rw [if_neg hs, bump_getD_zero v hv]

/-- Each aggregation step raises the histogram totals sum by one. -/
theorem sumTotals_updateDensity (d : Density) (f : String) (s : ℤ)
    (hne : (lookupFips d f).getD initVec ≠ []) :
    sumTotals (updateDensity d f s) = sumTotals d + 1 := by
  rw [updateDensity_eq]
  cases hl : lookupFips d f with
  | some w =>
    rw [hl] at hne
    simp only [Option.getD_some] at hne ⊢
    have h1 := sumTotals_setCounty_some d f (newVec w s) w hl
    have h2 := newVec_getD_zero w hne s
    omega
  | none =>
    simp only [Option.getD_none]
    have h1 := sumTotals_setCounty_none d f (newVec initVec s) hl
    have h2 := newVec_getD_zero initVec (by simp [initVec]) s
    have h3 : initVec.getD 0 0 = 0 := rfl
    omega

/-- One iteration of the assignment loop preserves the invariant. -/
theorem Inv_step (shapes : List GeoGeometry) (fipsList : List String)
    (nearest : Pt → ℕ) (pts : List (ℚ × ℚ × ℤ)) (pt : ℚ × ℚ × ℤ)
    (st : AssignState) (h : Inv (outcome shapes fipsList nearest) pts st) :
    Inv (outcome shapes fipsList nearest) (pts ++ [pt])
      (processPoint shapes fipsList nearest st pt) := by
  obtain ⟨hchar, hnone, hsum, hcnt⟩ := h
  cases hout : outcome shapes fipsList nearest pt with
  | none =>
    have hstep : processPoint shapes fipsList nearest st pt =
        { st with unassigned := st.unassigned + 1 } := by
      simp [processPoint, hout]
    rw [hstep]
    have hne : ∀ f : String, outcome shapes fipsList nearest pt ≠ some f := by
      intro f hc
      rw [hout] at hc
      cases hc
    have hneS : ∀ (f : String) (j : ℤ),
        ¬(outcome shapes fipsList nearest pt = some f ∧ pt.2.2 = j) :=
      fun f j hc => hne f hc.1
    refine ⟨?_, ?_, hsum, ?_⟩
    · intro f v hv
      rw [cntTo_append_notassigned _ _ _ _ (hne f),
        cntToS_append_ne _ _ _ _ _ (hneS f 0),
        cntToS_append_ne _ _ _ _ _ (hneS f 1),
        cntToS_append_ne _ _ _ _ _ (hneS f 2),
        cntToS_append_ne _ _ _ _ _ (hneS f 3)]
      exact hchar f v hv
    · intro f hv
      rw [cntTo_append_notassigned _ _ _ _ (hne f)]
      exact hnone f hv
    · simp only [List.length_append, List.length_cons, List.length_nil]
      omega
  | some f0 =>
    have hstep : processPoint shapes fipsList nearest st pt =
        { st with density := updateDensity st.density f0 pt.2.2,
                  assigned := st.assigned + 1 } := by
      simp [processPoint, hout]
    rw [hstep]
    have hwchar : (lookupFips st.density f0).getD initVec =
        [cntTo (outcome shapes fipsList nearest) pts f0,
         cntToS (outcome shapes fipsList nearest) pts f0 0,
         cntToS (outcome shapes fipsList nearest) pts f0 1,
         cntToS (outcome shapes fipsList nearest) pts f0 2,
         cntToS (outcome shapes fipsList nearest) pts f0 3] := by
      cases hl : lookupFips st.density f0 with
      | some w =>
        simp only [Option.getD_some]
        exact (hchar f0 w hl).1
      | none =>
        have h0 := hnone f0 hl
        have h0S : ∀ j,
            cntToS (outcome shapes fipsList nearest) pts f0 j = 0 := by
          intro j
          have := cntToS_le_cntTo (outcome shapes fipsList nearest) pts f0 j
          omega
        simp only [Option.getD_none, initVec, h0, h0S]
    have hnv : newVec ((lookupFips st.density f0).getD initVec) pt.2.2 =
        [cntTo (outcome shapes fipsList nearest) (pts ++ [pt]) f0,
         cntToS (outcome shapes fipsList nearest) (pts ++ [pt]) f0 0,
         cntToS (outcome shapes fipsList nearest) (pts ++ [pt]) f0 1,
         cntToS (outcome shapes fipsList nearest) (pts ++ [pt]) f0 2,
         cntToS (outcome shapes fipsList nearest) (pts ++ [pt]) f0 3] := by
      rw [hwchar, cntTo_append_assigned _ _ _ _ hout]
      by_cases hs : 0 ≤ pt.2.2 ∧ pt.2.2 ≤ 3
      · obtain ⟨hs0, hs3⟩ := hs
        have hcases : pt.2.2 = 0 ∨ pt.2.2 = 1 ∨ pt.2.2 = 2 ∨ pt.2.2 = 3 := by
          omega
        rcases hcases with hs' | hs' | hs' | hs'
        · rw [cntToS_append_eq _ _ _ _ _ hout hs',
            cntToS_append_ne _ _ _ _ _ (by
              intro hc; rw [hs'] at hc; exact absurd hc.2 (by decide)),
            cntToS_append_ne _ _ _ _ _ (by
              intro hc; rw [hs'] at hc; exact absurd hc.2 (by decide)),
            cntToS_append_ne _ _ _ _ _ (by
              intro hc; rw [hs'] at hc; exact absurd hc.2 (by decide)),
            hs']
          norm_num [newVec, bump, int_toNat_two, int_toNat_three,
            int_toNat_four]
        · rw [cntToS_append_eq _ _ _ _ _ hout hs',
            cntToS_append_ne _ _ _ _ _ (by
              intro hc; rw [hs'] at hc; exact absurd hc.2 (by decide)),
            cntToS_append_ne _ _ _ _ _ (by
              intro hc; rw [hs'] at hc; exact absurd hc.2 (by decide)),
            cntToS_append_ne _ _ _ _ _ (by
              intro hc; rw [hs'] at hc; exact absurd hc.2 (by decide)),
            hs']
          norm_num [newVec, bump, int_toNat_two, int_toNat_three,
            int_toNat_four]
        · rw [cntToS_append_eq _ _ _ _ _ hout hs',
            cntToS_append_ne _ _ _ _ _ (by
              intro hc; rw [hs'] at hc; exact absurd hc.2 (by decide)),
            cntToS_append_ne _ _ _ _ _ (by
              intro hc; rw [hs'] at hc; exact absurd hc.2 (by decide)),
            cntToS_append_ne _ _ _ _ _ (by
              intro hc; rw [hs'] at hc; exact absurd hc.2 (by decide)),
            hs']
          norm_num [newVec, bump, int_toNat_two, int_toNat_three,
            int_toNat_four]
        · rw [cntToS_append_eq _ _ _ _ _ hout hs',
            cntToS_append_ne _ _ _ _ _ (by
              intro hc; rw [hs'] at hc; exact absurd hc.2 (by decide)),
            cntToS_append_ne _ _ _ _ _ (by
              intro hc; rw [hs'] at hc; exact absurd hc.2 (by decide)),
            cntToS_append_ne _ _ _ _ _ (by
              intro hc; rw [hs'] at hc; exact absurd hc.2 (by decide)),
            hs']
          norm_num [newVec, bump, int_toNat_two, int_toNat_three,
            int_toNat_four]
      · rw [cntToS_append_ne _ _ _ _ _ (by
            intro hc; exact hs (by rw [hc.2]; exact ⟨by decide, by decide⟩)),
          cntToS_append_ne _ _ _ _ _ (by
            intro hc; exact hs (by rw [hc.2]; exact ⟨by decide, by decide⟩)),
          cntToS_append_ne _ _ _ _ _ (by
            intro hc; exact hs (by rw [hc.2]; exact ⟨by decide, by decide⟩)),
          cntToS_append_ne _ _ _ _ _ (by
            intro hc; exact hs (by rw [hc.2]; exact ⟨by decide, by decide⟩))]
        rw [newVec, if_neg hs]
        norm_num [bump]
    have hassigned :
        cntTo (outcome shapes fipsList nearest) (pts ++ [pt]) f0 =
          cntTo (outcome shapes fipsList nearest) pts f0 + 1 :=
      cntTo_append_assigned _ _ _ _ hout
    refine ⟨?_, ?_, ?_, ?_⟩
    · intro f v hv
      by_cases hf : f = f0
      · subst hf
        rw [updateDensity_eq, lookupFips_setCounty_self] at hv
        injection hv with hv
        subst hv
        exact ⟨hnv, by omega⟩
      · rw [updateDensity_eq, lookupFips_setCounty_ne _ _ _ _ hf] at hv
        have hnef : outcome shapes fipsList nearest pt ≠ some f := by
          rw [hout]
          intro hc
          injection hc with hc
          exact hf hc.symm
        rw [cntTo_append_notassigned _ _ _ _ hnef,
          cntToS_append_ne _ _ _ _ _ (fun hc => hnef hc.1),
          cntToS_append_ne _ _ _ _ _ (fun hc => hnef hc.1),
          cntToS_append_ne _ _ _ _ _ (fun hc => hnef hc.1),
          cntToS_append_ne _ _ _ _ _ (fun hc => hnef hc.1)]
        exact hchar f v hv
    · intro f hv
      by_cases hf : f = f0
      · subst hf
        rw [updateDensity_eq, lookupFips_setCounty_self] at hv
        cases hv
      · rw [updateDensity_eq, lookupFips_setCounty_ne _ _ _ _ hf] at hv
        have hnef : outcome shapes fipsList nearest pt ≠ some f := by
          rw [hout]
          intro hc
          injection hc with hc
          exact hf hc.symm
        rw [cntTo_append_notassigned _ _ _ _ hnef]
        exact hnone f hv
    · show sumTotals (updateDensity st.density f0 pt.2.2) = st.assigned + 1
      have hupd := sumTotals_updateDensity st.density f0 pt.2.2
        (by rw [hwchar]; simp)
      omega
    · simp only [List.length_append, List.length_cons, List.length_nil]
      omega

/-- The invariant holds for the full assignment loop. -/
theorem runAssign_Inv (shapes : List GeoGeometry) (fipsList : List String)
    (nearest : Pt → ℕ) (points : List (ℚ × ℚ × ℤ)) :
    Inv (outcome shapes fipsList nearest) points
      (runAssign shapes fipsList nearest points) := by
  induction points using List.reverseRecOn with
  | nil =>
    refine ⟨?_, ?_, rfl, rfl⟩
    · intro f v hv
      cases hv
    · intro f _
      rfl
  | append_singleton pts pt ih =>
    have hfold : runAssign shapes fipsList nearest (pts ++ [pt]) =
        processPoint shapes fipsList nearest
          (runAssign shapes fipsList nearest pts) pt := by
      simp [runAssign, List.foldl_append]
    rw [hfold]
    exact Inv_step shapes fipsList nearest pts pt
      (runAssign shapes fipsList nearest pts) ih

/-- C7: after aggregating any point list, every county record equals the
exact per-county counts — slot 0 (`total`) is the number of points
assigned to that county and slot `j + 1` counts the assigned points with
status `j` for `j ∈ {0,1,2,3}` (so a status in `[0,3]` lands in exactly
one bucket and any other status contributes to the total only) — and the
sum of all county totals plus the unassigned counter equals the number of
input points. -/
theorem histogram_aggregation_invariants (shapes : List GeoGeometry)
    (fipsList : List String) (nearest : Pt → ℕ)
    (points : List (ℚ × ℚ × ℤ)) :
    (∀ f v,
      lookupFips (runAssign shapes fipsList nearest points).density f =
        some v →
      v = [cntTo (outcome shapes fipsList nearest) points f,
           cntToS (outcome shapes fipsList nearest) points f 0,
           cntToS (outcome shapes fipsList nearest) points f 1,
           cntToS (outcome shapes fipsList nearest) points f 2,
           cntToS (outcome shapes fipsList nearest) points f 3]) ∧
    sumTotals (runAssign shapes fipsList nearest points).density +
        (runAssign shapes fipsList nearest points).unassigned =
      points.length := by
  obtain ⟨h1, _, h3, h4⟩ := runAssign_Inv shapes fipsList nearest points
  exact ⟨fun f v hv => (h1 f v hv).1, by omega⟩

/-- C9: a point that ends unassigned changes only the global unassigned
counter — the histogram map and the assigned counter are untouched — and
a county record exists in the map only once some point has been assigned
to that county. -/
theorem unassigned_frame_effect (shapes : List GeoGeometry)
    (fipsList : List String) (nearest : Pt → ℕ) :
    (∀ st pt, outcome shapes fipsList nearest pt = none →
      (processPoint shapes fipsList nearest st pt).density = st.density ∧
      (processPoint shapes fipsList nearest st pt).assigned = st.assigned ∧
      (processPoint shapes fipsList nearest st pt).unassigned =
        st.unassigned + 1) ∧
    (∀ points f,
      lookupFips (runAssign shapes fipsList nearest points).density f ≠
        none →
      ∃ pt ∈ points, outcome shapes fipsList nearest pt = some f) := by
  constructor
  · intro st pt h
    refine ⟨?_, ?_, ?_⟩ <;> simp [processPoint, h]
  · intro points f hf
    obtain ⟨h1, _, _, _⟩ := runAssign_Inv shapes fipsList nearest points
    cases hl : lookupFips (runAssign shapes fipsList nearest points).density f
      with
    | none => exact absurd hl hf
    | some v =>
      have hcnt := (h1 f v hl).2
      have hpos : 0 < cntTo (outcome shapes fipsList nearest) points f := by
        omega
      obtain ⟨pt, hmem, hpt⟩ := List.countP_pos_iff.mp hpos
      exact ⟨pt, hmem, of_decide_eq_true hpt⟩

/-! ## A concrete one-county run, used to instantiate the loop theorems -/

/-- One candidate county: the spec's square. -/
def wShapes : List GeoGeometry := [sqGeom]

/-- Its fips list. -/
def wFips : List String := ["12345"]

/-- The trivial spatial index over a single candidate. -/
def wNearest : Pt → ℕ := fun _ => 0

/-- Two points: the square's centroid (status 0, assigned) and the far
point `(20, 20)` (status 1, unassigned — outside and beyond tolerance). -/
def wPoints : List (ℚ × ℚ × ℤ) := [(5, 5, 0), (20, 20, 1)]

/-- The centroid of the square resolves to its county. -/
theorem outcome_inside :
    outcome wShapes wFips wNearest (5, 5, 0) = some "12345" := by
  norm_num [outcome, wShapes, wFips, wNearest, resolvePoint, geomContains,
    sqGeom, containsPoly, inRing, ringEdges, sqRing]

/-- The far point `(20, 20)` is neither contained nor within tolerance. -/
theorem outcome_far :
    outcome wShapes wFips wNearest (20, 20, 1) = none := by
  norm_num [outcome, wShapes, wFips, wNearest, resolvePoint, TOLERANCE,
    distLt, geomContains, geomEdges, distSqPointSeg, sqGeom, containsPoly,
    inRing, ringEdges, sqRing]

/-- The concrete two-point run evaluates to one county record
`[1, 1, 0, 0, 0]` with one assigned and one unassigned point. -/
theorem runAssign_wPoints :
    runAssign wShapes wFips wNearest wPoints =
      ⟨[("12345", [1, 1, 0, 0, 0])], 1, 1⟩ := by
  have h1 := outcome_inside
  have h2 := outcome_far
  simp [runAssign, wPoints, initState, processPoint, h1, h2, updateDensity,
    lookupFips, initVec, bump, setCounty]

/-- C7 witness: the aggregation invariants instantiated on the concrete
two-point run. -/
theorem histogram_aggregation_invariants_witness :
    (lookupFips (runAssign wShapes wFips wNearest wPoints).density "12345" =
      some [1, 1, 0, 0, 0]) ∧
    [1, 1, 0, 0, 0] =
      [cntTo (outcome wShapes wFips wNearest) wPoints "12345",
       cntToS (outcome wShapes wFips wNearest) wPoints "12345" 0,
       cntToS (outcome wShapes wFips wNearest) wPoints "12345" 1,
       cntToS (outcome wShapes wFips wNearest) wPoints "12345" 2,
       cntToS (outcome wShapes wFips wNearest) wPoints "12345" 3] ∧
    sumTotals (runAssign wShapes wFips wNearest wPoints).density +
        (runAssign wShapes wFips wNearest wPoints).unassigned =
      wPoints.length := by
  have hl : lookupFips (runAssign wShapes wFips wNearest wPoints).density
      "12345" = some [1, 1, 0, 0, 0] := by
    rw [runAssign_wPoints]
    simp [lookupFips]
  refine ⟨hl, ?_, ?_⟩
  · exact (histogram_aggregation_invariants wShapes wFips wNearest
      wPoints).1 _ _ hl
  · exact (histogram_aggregation_invariants wShapes wFips wNearest wPoints).2

/-- C9 witness: the frame property instantiated at the far point, and the
record-existence property instantiated on the concrete run. -/
theorem unassigned_frame_effect_witness :
    outcome wShapes wFips wNearest (20, 20, 1) = none ∧
    (processPoint wShapes wFips wNearest initState (20, 20, 1)).density =
      initState.density ∧
    ∃ pt ∈ wPoints, outcome wShapes wFips wNearest pt = some "12345" := by
  have h2 := outcome_far
  have hne : lookupFips (runAssign wShapes wFips wNearest wPoints).density
      "12345" ≠ none := by
    rw [runAssign_wPoints]
    simp [lookupFips]
  exact ⟨h2,
    ((unassigned_frame_effect wShapes wFips wNearest).1 initState
      (20, 20, 1) h2).1,
    (unassigned_frame_effect wShapes wFips wNearest).2 wPoints "12345" hne⟩

/-! ## Summary statistics (C5) -/

/-- `max` succeeds exactly on non-empty lists. -/
theorem pyMax_ok (l : List ℕ) (h : l ≠ []) : ∃ v, pyMax l = .ok v := by
  cases l with
  | nil => exact absurd rfl h
  | cons x xs => exact ⟨xs.foldl Nat.max x, rfl⟩

theorem length_insertSorted (x : ℕ) (l : List ℕ) :
    (insertSorted x l).length = l.length + 1 := by
  induction l with
  | nil => rfl
  | cons y ys ih =>
    by_cases h : x ≤ y
    · simp [insertSorted, h]
    · simp [insertSorted, h, ih]

theorem length_pySorted (l : List ℕ) : (pySorted l).length = l.length := by
  induction l with
  | nil => rfl
  | cons x xs ih =>
    simp only [pySorted, List.foldr_cons] at ih ⊢
    rw [length_insertSorted, ih, List.length_cons]

/-- The median index access succeeds exactly on non-empty lists. -/
theorem pyMedian_ok (l : List ℕ) (h : l ≠ []) : ∃ v, pyMedian l = .ok v := by
  unfold pyMedian
  have hpos : 0 < l.length := List.length_pos.mpr h
  have hlen : l.length / 2 < (pySorted l).length := by
    rw [length_pySorted]
    omega
  cases hg : (pySorted l).get? (l.length / 2) with
  | none =>
    rw [List.get?_eq_none] at hg
    omega
  | some v => exact ⟨v, rfl⟩

/-- C5 amended: whenever at least one point was assigned (the histogram is
non-empty), the run completes and reports the summary; the failure is
confined to the empty-histogram case. -/
theorem run_reports_when_nonempty (shapes : List GeoGeometry)
    (fipsList : List String) (nearest : Pt → ℕ)
    (points : List (ℚ × ℚ × ℤ))
    (h : (runAssign shapes fipsList nearest points).density ≠ []) :
    ∃ r, runSummary shapes fipsList nearest points = .ok r := by
  have htot : (runAssign shapes fipsList nearest points).density.map
      (fun kv => kv.2.getD 0 0) ≠ [] := by
    simpa using h
  obtain ⟨mx, hmx⟩ := pyMax_ok _ htot
  obtain ⟨med, hmed⟩ := pyMedian_ok _ htot
  refine ⟨⟨(runAssign shapes fipsList nearest points).assigned,
    (runAssign shapes fipsList nearest points).unassigned,
    (runAssign shapes fipsList nearest points).density.length, mx, med⟩, ?_⟩
  simp only [runSummary, hmx, hmed]

/-- C5 amended witness: the concrete two-point run has a non-empty
histogram and its summary is produced. -/
theorem run_reports_when_nonempty_witness :
    (runAssign wShapes wFips wNearest wPoints).density ≠ [] ∧
    ∃ r, runSummary wShapes wFips wNearest wPoints = .ok r := by
  have hne : (runAssign wShapes wFips wNearest wPoints).density ≠ [] := by
    rw [runAssign_wPoints]
    simp
  exact ⟨hne, run_reports_when_nonempty wShapes wFips wNearest wPoints hne⟩

/-- C5 counterexample: with an empty point list — and likewise with a
point list whose every point ends unassigned — the histogram is empty and
the summary step fails on Python's `max()` of an empty sequence, so the
run does not complete without a fatal error. -/
theorem empty_histogram_crash_counterexample :
    runSummary wShapes wFips wNearest [] =
      .error "max() arg is an empty sequence" ∧
    runSummary wShapes wFips wNearest [(20, 20, 1)] =
      .error "max() arg is an empty sequence" := by
  constructor
  · rfl
  · have h2 := outcome_far
    simp [runSummary, runAssign, processPoint, h2, initState, pyMax]

/-! ## Fips normalization (C10) -/

/-- `zfill` pads up to the width but never truncates: the result's length
is the maximum of the width and the input length. -/
theorem zfill_length (w : ℕ) (s : String) :
    (zfill w s).length = max s.length w := by
  unfold zfill
  by_cases h : w ≤ s.length
  · rw [if_pos h, Nat.max_eq_left h]
  · rw [if_neg h]
    push_neg at h
    have hlen : s.length = s.data.length := rfl
    cases hd : s.data with
    | nil =>
      have h0 : s.length = 0 := by rw [hlen, hd]; rfl
      simp only [String.length, List.length_replicate]
      omega
    | cons c rest =>
      have hsl : s.length = rest.length + 1 := by
        rw [hlen, hd, List.length_cons]
      dsimp only
      by_cases hc : c = '-' ∨ c = '+'
      · rw [if_pos hc]
        simp only [String.length, List.length_cons, List.length_append,
          List.length_replicate]
        omega
      · rw [if_neg hc]
        simp only [String.length, List.length_append, List.length_replicate,
          hd, List.length_cons]
        omega

/-- A feature whose string id is longer than five characters. -/
def longIdFeature : Feature := ⟨some (.str "1234567"), sqGeom⟩

/-- C10 amended: every fips key produced by the geometry-building loop is
`str(id).zfill(5)` for a feature accepted by validation, and its length is
`max(len(str(id)), 5)`: exactly five characters whenever `str(id)` has at
most five (including a missing id, which yields `"0None"`), but a longer
id passes through unpadded and untruncated. -/
theorem fips_keys_zfilled (isValid : GeoGeometry → Bool)
    (feats : List Feature) (f : String)
    (h : f ∈ (buildCounties isValid feats).2) :
    (∃ feat ∈ feats, isValid feat.geometry = true ∧
      f = zfill 5 (pyStr feat.id) ∧
      f.length = max (pyStr feat.id).length 5) ∧
    zfill 5 (pyStr none) = "0None" := by
  constructor
  · simp only [buildCounties, List.mem_map] at h
    obtain ⟨feat, hmem, hf⟩ := h
    rw [List.mem_filter] at hmem
    exact ⟨feat, hmem.1, hmem.2, hf.symm, by rw [← hf, zfill_length]⟩
  · rfl

/-- C10 amended witness: the over-long string id `"1234567"` is accepted
and appears as its own unpadded seven-character key. -/
theorem fips_keys_zfilled_witness :
    ("1234567" : String) ∈ (buildCounties (fun _ => true) [longIdFeature]).2 ∧
    ∃ feat ∈ [longIdFeature], (fun _ => true) feat.geometry = true ∧
      ("1234567" : String) = zfill 5 (pyStr feat.id) ∧
      ("1234567" : String).length = max (pyStr feat.id).length 5 := by
  have hm : ("1234567" : String) ∈
      (buildCounties (fun _ => true) [longIdFeature]).2 := by
    rw [show (buildCounties (fun _ => true) [longIdFeature]).2 = ["1234567"]
      from rfl]
    simp
  exact ⟨hm, (fips_keys_zfilled (fun _ => true) [longIdFeature] _ hm).1⟩

/-- C10 counterexample: a validated geometry with id `"1234567"` puts the
seven-character key `"1234567"` into the output histogram, so not every
fips key of the histogram is a five-character string. -/
theorem fips_key_not_five_chars_counterexample :
    (buildCounties (fun _ => true) [longIdFeature]).2 = ["1234567"] ∧
    (runAssign (buildCounties (fun _ => true) [longIdFeature]).1
        (buildCounties (fun _ => true) [longIdFeature]).2
        wNearest [(5, 5, 0)]).density =
      [("1234567", [1, 1, 0, 0, 0])] ∧
    ("1234567" : String).length ≠ 5 := by
  have ho : outcome [sqGeom] ["1234567"] wNearest (5, 5, 0) =
      some "1234567" := by
    norm_num [outcome, wNearest, resolvePoint, geomContains, sqGeom,
      containsPoly, inRing, ringEdges, sqRing]
  refine ⟨rfl, ?_, by decide⟩
  rw [show buildCounties (fun _ => true) [longIdFeature] =
    ([sqGeom], ["1234567"]) from rfl]
  simp [runAssign, processPoint, ho, initState, updateDensity, lookupFips,
    initVec, bump, setCounty]
